import Mathlib

/-!
# Verification of the gallery backend (`server.js`)

A shallow embedding of the gallery record store and upload lifecycle of
`server.js`.  The mutable world visible to the handlers is

* the blob store (the set of files under `public/images/gallery`, here a
  list of the public paths at which files exist), and
* the metadata index (the JSON array stored in `data/gallery.json`).

File-system effects are modelled by explicit state passing; the success of
`fs.writeFileSync` (which `writeGalleryData` converts into a boolean) is an
oracle parameter `saveOk`, and `Date.now()` is an explicit `now : Nat`
argument.  Strings stay strings; JS falsiness of a missing/empty form field
is modelled by the empty string.
-/

namespace Gallery

/-- One gallery entry, as built by the upload handler (`server.js` 153-159). -/
structure ImageRecord where
  id : String
  src : String
  alt : String
  category : String
  createdAt : String
deriving DecidableEq, Repr

/-- The state of the two on-disk stores: the blob directory (as the list of
public paths of existing files, most recently created first) and the JSON
metadata index. -/
structure GalleryState where
  blobs : List String
  index : List ImageRecord
deriving DecidableEq, Repr

/-- The initial state: empty blob directory, and the database file is
initialised to `[]` (`server.js` 36-38). -/
def initState : GalleryState := ⟨[], []⟩

/-- The outcome of reading and JSON-parsing `data/gallery.json`:
`ok data` when both succeed, `failure` when either throws. -/
inductive ReadOutcome where
  | ok (data : List ImageRecord)
  | failure
deriving DecidableEq, Repr

/-- `readGalleryData` (`server.js` 70-78): returns the parsed content, and on
any read or parse error catches it and returns the empty array. -/
def readGalleryData : ReadOutcome → List ImageRecord
  | .ok data => data
  | .failure => []

/-- The multipart file as multer presents it to `fileFilter` and the handler:
its generated on-disk filename, the client-declared mimetype, and its size in
bytes. -/
structure UploadedFile where
  filename : String
  mimetype : String
  size : Nat
deriving DecidableEq, Repr

/-- The mimetype allow-list of `fileFilter` (`server.js` 53). -/
def allowedTypes : List String := ["image/jpeg", "image/jpg", "image/png", "image/webp"]

/-- `fileFilter` (`server.js` 52-59): accepts exactly the mimetypes in
`allowedTypes`. -/
def fileFilter (mimetype : String) : Bool :=
  allowedTypes.contains mimetype

/-- The multer size limit `limits.fileSize` (`server.js` 64-66). -/
def maxFileSize : Nat := 5 * 1024 * 1024

/-- The public path of a stored blob: uploads are served from
`/images/gallery/<filename>` and the delete handler resolves
`path.join(__dirname, 'public', record.src)` back to the same file, so a
blob is identified by this path. -/
def blobPath (filename : String) : String :=
  "/images/gallery/" ++ filename

/-- `new Date(now).toISOString()`; the exact rendering of the timestamp is
irrelevant to every claim, only that it is a string derived from `now`. -/
def toISOString (now : Nat) : String :=
  toString now ++ "Z"

/-- The typed outcome of an upload request, one constructor per exit of the
multer pipeline plus the `POST /api/gallery/upload` handler
(`server.js` 132-192). -/
inductive UploadResult where
  | created (rec : ImageRecord)
  | missingFile
  | missingFields
  | invalidFileType
  | payloadTooLarge
  | persistFailure
deriving DecidableEq, Repr

/-- The record the handler constructs (`server.js` 153-159):
`id = Date.now().toString()`, `src = /images/gallery/<filename>`. -/
def newImage (file : UploadedFile) (alt category : String) (now : Nat) : ImageRecord :=
  { id := toString now
    src := blobPath file.filename
    alt := alt
    category := category
    createdAt := toISOString now }

/-- The full upload request: multer's `fileFilter` and `limits.fileSize`
(`server.js` 52-67) run before any blob bytes are persisted — a rejected
type or an oversized payload leaves no file behind (the `LIMIT_FILE_SIZE`
error is mapped by the middleware at `server.js` 250-258); this pre-handler
cleanup is multer's contract, modelled from the spec.  An accepted file is
written to the blob directory, then the handler (`server.js` 132-192) runs:
missing file → 400; missing `alt`/`category` → `unlinkSync` the blob and
400; otherwise prepend `newImage` with `unshift` and `writeGalleryData`;
on write failure → `unlinkSync` the blob and 500. -/
def uploadRequest (st : GalleryState) (file : Option UploadedFile)
    (alt category : String) (now : Nat) (saveOk : Bool) :
    UploadResult × GalleryState :=
  match file with
  | none => (.missingFile, st)
  | some f =>
    if fileFilter f.mimetype = false then
      (.invalidFileType, st)
    else if maxFileSize < f.size then
      (.payloadTooLarge, st)
    else
      -- multer has written the blob; the handler now runs
      let blobs1 := blobPath f.filename :: st.blobs
      if alt = "" ∨ category = "" then
        (.missingFields, { st with blobs := blobs1.erase (blobPath f.filename) })
      else
        let rec1 := newImage f alt category now
        let images := rec1 :: st.index
        if saveOk then
          (.created rec1, { blobs := blobs1, index := images })
        else
          (.persistFailure, { st with blobs := blobs1.erase (blobPath f.filename) })

/-- The typed outcome of `DELETE /api/gallery/:id` (`server.js` 195-238). -/
inductive DeleteResult where
  | deleted
  | notFound
  | persistFailure
deriving DecidableEq, Repr

/-- The delete handler (`server.js` 195-238): `find` the record by id; absent
→ 404 with nothing touched; otherwise `unlinkSync` its blob if
`existsSync` (a missing file is skipped), `filter` out every record with that
id, and `writeGalleryData`; on write failure → 500 (the blob is already
gone, the stored index is unchanged). -/
def deleteRequest (st : GalleryState) (id : String) (saveOk : Bool) :
    DeleteResult × GalleryState :=
  match st.index.find? (fun img => img.id == id) with
  | none => (.notFound, st)
  | some imageToDelete =>
    let blobs1 := st.blobs.erase imageToDelete.src
    let updatedImages := st.index.filter (fun img => img.id != id)
    if saveOk then
      (.deleted, { blobs := blobs1, index := updatedImages })
    else
      (.persistFailure, { st with blobs := blobs1 })

/-- `GET /api/gallery/category/:category` (`server.js` 110-129): `"all"`
returns the whole index, anything else filters on exact equality of
`category`. -/
def getByCategory (images : List ImageRecord) (category : String) : List ImageRecord :=
  if category == "all" then images
  else images.filter (fun img => img.category == category)

/-- An API operation that mutates the stores, with its oracle inputs. -/
inductive Op where
  | upload (file : Option UploadedFile) (alt category : String) (now : Nat) (saveOk : Bool)
  | delete (id : String) (saveOk : Bool)
deriving DecidableEq, Repr

/-- Run one operation for its state effect. -/
def applyOp (st : GalleryState) : Op → GalleryState
  | .upload f a c now ok => (uploadRequest st f a c now ok).2
  | .delete id ok => (deleteRequest st id ok).2

/-- Run a sequence of operations from the empty initial state. -/
def runOps (ops : List Op) : GalleryState :=
  ops.foldl applyOp initState

/-- The `id` fields of the stored index, in order. -/
def indexIds (st : GalleryState) : List String :=
  st.index.map (fun r => r.id)

/-- The id string an operation can introduce into the index: an upload
generates `Date.now().toString()`, a delete generates none. -/
def opIds : Op → List String
  | .upload _ _ _ now _ => [toString now]
  | .delete _ _ => []

/-- All id strings the uploads of a sequence can generate, newest first. -/
def uploadIds : List Op → List String
  | [] => []
  | op :: ops => uploadIds ops ++ opIds op

/-- Consistency between the stores: every file in the blob directory has a
matching metadata record (its `src` is the file's public path). -/
def noOrphan (st : GalleryState) : Prop :=
  ∀ b ∈ st.blobs, ∃ r ∈ st.index, r.src = b

/-- The request-level inputs of one upload. -/
structure UploadInput where
  file : UploadedFile
  alt : String
  category : String
  now : Nat
deriving DecidableEq, Repr

/-- An upload input that fails none of the checks: allowed mimetype, within
the size limit, and non-empty `alt` and `category`. -/
def validInput (u : UploadInput) : Bool :=
  fileFilter u.file.mimetype && decide (u.file.size ≤ maxFileSize)
    && !(u.alt == "") && !(u.category == "")

/-- The record a given upload input creates. -/
def mkUpload (u : UploadInput) : ImageRecord :=
  newImage u.file u.alt u.category u.now

/-- Run a sequence of uploads whose metadata writes all succeed. -/
def runUploads (st : GalleryState) (us : List UploadInput) : GalleryState :=
  us.foldl (fun s u => (uploadRequest s (some u.file) u.alt u.category u.now true).2) st

/-- A sample state with one blob and its matching record. -/
def sampleState : GalleryState :=
  ⟨["/images/gallery/a.jpg"], [⟨"7", "/images/gallery/a.jpg", "a", "cats", "5Z"⟩]⟩

/-- A sample state whose index holds two records sharing the id `"5"`. -/
def dupState : GalleryState :=
  ⟨[], [⟨"5", "/images/gallery/x.jpg", "a", "cats", "5Z"⟩,
        ⟨"5", "/images/gallery/y.jpg", "b", "dogs", "5Z"⟩]⟩

/-- A sample index with categories `cats` and `dogs`. -/
def sampleImages : List ImageRecord :=
  [⟨"1", "/images/gallery/a.jpg", "a", "cats", "1Z"⟩,
   ⟨"2", "/images/gallery/b.jpg", "b", "dogs", "2Z"⟩]

/-! ## Helper lemmas -/

/-- One operation either leaves the stored ids alone, drops some of them
(delete filters the index), or prepends the single freshly generated id
(successful upload): in every case the resulting id list is a sublist of
`opIds op ++` the old ids. -/
theorem applyOp_ids_sublist (st : GalleryState) (op : Op) :
    (indexIds (applyOp st op)).Sublist (opIds op ++ indexIds st) := by
  cases op with
  | upload f alt category now saveOk =>
    cases f with
    | none =>
      simp only [applyOp, uploadRequest, opIds, indexIds]
      exact List.sublist_cons_self _ _
    | some f =>
      simp only [applyOp, uploadRequest, opIds, indexIds]
      split_ifs <;>
        first
          | exact List.sublist_cons_self _ _
          | exact List.Sublist.refl _
  | delete id saveOk =>
    simp only [applyOp, deleteRequest, opIds, indexIds]
    rcases hfind : st.index.find? (fun img => img.id == id) with _ | r0
    · simp [hfind]
    · simp only [hfind]
      split_ifs <;> simp
      exact (List.filter_sublist _).map _

/-- Running a sequence of operations, the stored ids form a sublist of the
ids the uploads generated together with the initial ids. -/
theorem foldl_ids_sublist (ops : List Op) :
    ∀ st : GalleryState,
      (indexIds (ops.foldl applyOp st)).Sublist (uploadIds ops ++ indexIds st) := by
  induction ops with
  | nil => intro st; simp [uploadIds]
  | cons op ops ih =>
    intro st
    have h1 := ih (applyOp st op)
    have h2 := (applyOp_ids_sublist st op).append_left (uploadIds ops)
    have h3 : uploadIds ops ++ (opIds op ++ indexIds st)
        = uploadIds (op :: ops) ++ indexIds st := by
      simp [uploadIds, List.append_assoc]
    exact (h1.trans (by rw [← h3] at *; exact h2))

/-- A fully valid upload with a successful save takes the created branch:
the new blob is written and the new record is prepended with `unshift`. -/
theorem uploadRequest_valid (st : GalleryState) (u : UploadInput)
    (h : validInput u = true) :
    uploadRequest st (some u.file) u.alt u.category u.now true =
      (.created (mkUpload u),
        ⟨blobPath u.file.filename :: st.blobs, mkUpload u :: st.index⟩) := by
  simp only [validInput, Bool.and_eq_true, decide_eq_true_eq, Bool.not_eq_true',
    beq_eq_false_iff_ne, ne_eq] at h
  obtain ⟨⟨⟨h1, h2⟩, h3⟩, h4⟩ := h
  simp [uploadRequest, h1, h2, h3, h4, Nat.not_lt.2 h2, mkUpload]

/-- After a sequence of valid, successfully saved uploads the index is the
new records in reverse upload order, on top of whatever was there before. -/
theorem runUploads_index (us : List UploadInput) :
    ∀ st : GalleryState, (∀ u ∈ us, validInput u = true) →
      (runUploads st us).index = (us.map mkUpload).reverse ++ st.index := by
  induction us with
  | nil => intro st _; simp [runUploads]
  | cons u us ih =>
    intro st hall
    have hu : validInput u = true := hall u (List.mem_cons_self u us)
    have hrest : ∀ v ∈ us, validInput v = true :=
      fun v hv => hall v (List.mem_cons_of_mem u hv)
    have hstep : runUploads st (u :: us)
        = runUploads ⟨blobPath u.file.filename :: st.blobs, mkUpload u :: st.index⟩ us := by
      simp only [runUploads, List.foldl_cons, uploadRequest_valid st u hu]
    rw [hstep, ih _ hrest]
    simp

/-- When no record of the index carries the requested id, the delete handler
returns 404 and touches neither store. -/
theorem deleteRequest_eq_notFound (st : GalleryState) (id : String) (saveOk : Bool)
    (h : ∀ r ∈ st.index, r.id ≠ id) :
    deleteRequest st id saveOk = (.notFound, st) := by
  have hfind : st.index.find? (fun img => img.id == id) = none :=
    List.find?_eq_none.2 (fun r hr => by simp [h r hr])
  simp [deleteRequest, hfind]

/-! ## Claims -/

/-- Claim C1, as amended: across any sequence of Upload and Delete operations
starting from the empty index, the `id` field is unique across the stored
sequence, provided the id strings generated by the uploads
(`Date.now().toString()` values) are pairwise distinct — that is, provided no
two uploads observe the same millisecond timestamp. -/
theorem claim_C1 (ops : List Op) (h : (uploadIds ops).Nodup) :
    ((runOps ops).index.map (fun r => r.id)).Nodup := by
  have hs := foldl_ids_sublist ops initState
  simp only [initState, indexIds, List.map_nil, List.append_nil] at hs
  exact hs.nodup h

/-- Claim C1, counterexample to the claim as stated: two valid uploads in the
same millisecond (`Date.now() = 0` for both) produce a reachable index whose
two records share the id `"0"` — the second upload does not assign an id
distinct from the one already in the index. -/
theorem claim_C1_counterexample :
    ¬ (((runOps [.upload (some ⟨"a.jpg", "image/jpeg", 10⟩) "a" "cats" 0 true,
          .upload (some ⟨"b.jpg", "image/jpeg", 10⟩) "b" "cats" 0 true]).index.map
            (fun r => r.id)).Nodup) := by
  decide

/-- Claim C1, witness: two uploads at distinct milliseconds followed by a
delete yield an index with pairwise distinct ids. -/
theorem claim_C1_witness :
    ((runOps [.upload (some ⟨"a.jpg", "image/jpeg", 10⟩) "a" "cats" 1 true,
        .upload (some ⟨"b.jpg", "image/jpeg", 10⟩) "b" "cats" 2 true,
        .delete "1" true]).index.map (fun r => r.id)).Nodup :=
  claim_C1 _ (by decide)

/-- Claim C2: an upload that fails with MissingFields or PersistFailure after
its blob has been written deletes that blob again and leaves both stores
exactly as they were; in particular a store without orphan blobs still has
none after any such failed upload. -/
theorem claim_C2 (st : GalleryState) (f : UploadedFile) (alt category : String)
    (now : Nat) (saveOk : Bool)
    (h : (uploadRequest st (some f) alt category now saveOk).1 = .missingFields ∨
         (uploadRequest st (some f) alt category now saveOk).1 = .persistFailure) :
    (uploadRequest st (some f) alt category now saveOk).2 = st ∧
    (noOrphan st → noOrphan (uploadRequest st (some f) alt category now saveOk).2) := by
  have hst : (uploadRequest st (some f) alt category now saveOk).2 = st := by
    simp only [uploadRequest] at h ⊢
    split_ifs at h ⊢ with h1 h2 h3 h4
    · rfl
    · rfl
    · simp [List.erase_cons_head]
    · rcases h with h | h <;> simp at h
    · simp [List.erase_cons_head]
  exact ⟨hst, fun hno => by rw [hst]; exact hno⟩

/-- Claim C2, witness: an upload with an empty `alt` fails with MissingFields
and leaves the empty initial state untouched. -/
theorem claim_C2_witness :
    (uploadRequest initState (some ⟨"a.jpg", "image/jpeg", 10⟩) "" "cats" 5 true).2
        = initState ∧
    (noOrphan initState →
      noOrphan (uploadRequest initState (some ⟨"a.jpg", "image/jpeg", 10⟩) "" "cats" 5 true).2) :=
  claim_C2 initState ⟨"a.jpg", "image/jpeg", 10⟩ "" "cats" 5 true (Or.inl (by decide))

/-- Claim C3: filtering by `"all"` returns the whole index unchanged, and
filtering by any other category string returns exactly the subsequence of
records with that exact category, in their original order. -/
theorem claim_C3 (images : List ImageRecord) (category : String) :
    getByCategory images "all" = images ∧
    (category ≠ "all" →
      (getByCategory images category).Sublist images ∧
      getByCategory images category
        = images.filter (fun r => r.category == category)) := by
  refine ⟨rfl, fun h => ?_⟩
  have hb : (category == "all") = false := by
    simp [h]
  have hg : getByCategory images category
      = images.filter (fun r => r.category == category) := by
    simp only [getByCategory, hb, Bool.false_eq_true, if_false]
  exact ⟨hg ▸ List.filter_sublist _, hg⟩

/-- Claim C3, witness: on a two-record cats/dogs index, filtering by
`"dogs"` yields exactly the dogs subsequence. -/
theorem claim_C3_witness :
    (getByCategory sampleImages "dogs").Sublist sampleImages ∧
    getByCategory sampleImages "dogs"
      = sampleImages.filter (fun r => r.category == "dogs") :=
  (claim_C3 sampleImages "dogs").2 (by decide)

/-- Claim C4: starting from the empty index, a sequence of valid uploads
whose saves all succeed leaves the index equal to the created records in
reverse upload order — the most recently uploaded record first. -/
theorem claim_C4 (us : List UploadInput) (h : ∀ u ∈ us, validInput u = true) :
    (runUploads initState us).index = (us.map mkUpload).reverse := by
  rw [runUploads_index us initState h]
  simp [initState]

/-- Claim C4, witness: two concrete valid uploads end up in the index in
reverse upload order. -/
theorem claim_C4_witness :
    (runUploads initState
        [⟨⟨"a.jpg", "image/jpeg", 10⟩, "a", "cats", 1⟩,
         ⟨⟨"b.png", "image/png", 20⟩, "b", "dogs", 2⟩]).index
      = ([⟨⟨"a.jpg", "image/jpeg", 10⟩, "a", "cats", 1⟩,
          ⟨⟨"b.png", "image/png", 20⟩, "b", "dogs", 2⟩].map mkUpload).reverse :=
  claim_C4 _ (by decide)

/-- Claim C5: reading the metadata document is fail-soft — a read or parse
failure yields the empty sequence and no error, and a successful read yields
the parsed content verbatim. -/
theorem claim_C5 :
    readGalleryData .failure = [] ∧ ∀ d, readGalleryData (.ok d) = d :=
  ⟨rfl, fun _ => rfl⟩

/-- Claim C6: delete returns NotFound exactly when no record carries the
requested id; a successful delete erases the found record's blob (a blob
already absent from the store leaves the store unchanged — not an error),
leaves no record with that id in the saved index, and a second delete of the
same id returns NotFound. -/
theorem claim_C6 (st : GalleryState) (id : String) (saveOk : Bool) :
    ((deleteRequest st id saveOk).1 = .notFound ↔ ∀ r ∈ st.index, r.id ≠ id) ∧
    ((deleteRequest st id saveOk).1 = .deleted →
      (∃ r, st.index.find? (fun img => img.id == id) = some r ∧
        (deleteRequest st id saveOk).2.blobs = st.blobs.erase r.src ∧
        (r.src ∉ st.blobs → (deleteRequest st id saveOk).2.blobs = st.blobs)) ∧
      (∀ r ∈ (deleteRequest st id saveOk).2.index, r.id ≠ id) ∧
      (∀ saveOk2 : Bool,
        (deleteRequest (deleteRequest st id saveOk).2 id saveOk2).1 = .notFound)) := by
  rcases hfind : st.index.find? (fun img => img.id == id) with _ | r0
  · constructor
    · have hall : ∀ r ∈ st.index, r.id ≠ id := by
        intro r hr
        have := List.find?_eq_none.1 hfind r hr
        simpa using this
      exact ⟨fun _ => hall, fun _ => by simp [deleteRequest, hfind]⟩
    · intro hdel
      simp [deleteRequest, hfind] at hdel
  · have hmem : r0 ∈ st.index := List.mem_of_find?_eq_some hfind
    have hid : r0.id = id := by
      have := List.find?_some hfind
      simpa using this
    constructor
    · constructor
      · intro hnf
        cases saveOk with
        | false => simp [deleteRequest, hfind] at hnf
        | true => simp [deleteRequest, hfind] at hnf
      · intro hall
        exact absurd hid (hall r0 hmem)
    · intro hdel
      cases saveOk with
      | false => simp [deleteRequest, hfind] at hdel
      | true =>
        have hblobs : (deleteRequest st id true).2.blobs = st.blobs.erase r0.src := by
          simp [deleteRequest, hfind]
        have hindex : (deleteRequest st id true).2.index
            = st.index.filter (fun img => img.id != id) := by
          simp [deleteRequest, hfind]
        have hnodup : ∀ r ∈ (deleteRequest st id true).2.index, r.id ≠ id := by
          intro r hr
          rw [hindex] at hr
          have := (List.mem_filter.1 hr).2
          simpa [bne_iff_ne] using this
        refine ⟨⟨r0, hfind, hblobs, fun hnotmem => ?_⟩, hnodup, ?_⟩
        · rw [hblobs, List.erase_of_not_mem hnotmem]
        · intro saveOk2
          rw [deleteRequest_eq_notFound _ _ saveOk2 hnodup]

/-- Claim C6, witness: deleting the one record of the sample state removes
its blob and record, and deleting the same id again returns NotFound. -/
theorem claim_C6_witness :
    (∀ r ∈ (deleteRequest sampleState "7" true).2.index, r.id ≠ "7") ∧
    (deleteRequest (deleteRequest sampleState "7" true).2 "7" true).1
      = DeleteResult.notFound :=
  ⟨((claim_C6 sampleState "7" true).2 (by decide)).2.1,
   ((claim_C6 sampleState "7" true).2 (by decide)).2.2 true⟩

/-- Claim C7: an upload whose mimetype is outside the allow-list fails with
InvalidFileType before any blob is written (both stores untouched), and every
mimetype in the allow-list passes the file filter. -/
theorem claim_C7 (st : GalleryState) (f : UploadedFile) (alt category : String)
    (now : Nat) (saveOk : Bool) :
    (f.mimetype ∉ allowedTypes →
      uploadRequest st (some f) alt category now saveOk = (.invalidFileType, st)) ∧
    (f.mimetype ∈ allowedTypes → fileFilter f.mimetype = true) := by
  constructor
  · intro hnot
    have hf : fileFilter f.mimetype = false := by
      simp [fileFilter, List.contains, List.elem_iff, hnot]
    simp [uploadRequest, hf]
  · intro hmem
    simp [fileFilter, List.contains, List.elem_iff, hmem]

/-- Claim C7, witness: a `text/plain` upload is rejected with InvalidFileType
and leaves the state untouched, while `image/png` passes the filter. -/
theorem claim_C7_witness :
    uploadRequest initState (some ⟨"a.txt", "text/plain", 10⟩) "a" "cats" 5 true
      = (.invalidFileType, initState) ∧
    fileFilter "image/png" = true :=
  ⟨(claim_C7 initState ⟨"a.txt", "text/plain", 10⟩ "a" "cats" 5 true).1 (by decide),
   (claim_C7 initState ⟨"x.png", "image/png", 10⟩ "a" "cats" 5 true).2 (by decide)⟩

/-- Claim C8: an upload of an allowed type whose payload exceeds
5 MiB = 5 * 1024 * 1024 bytes is rejected with PayloadTooLarge leaving both
stores untouched, and a payload of at most 5 MiB is never rejected on size
grounds. -/
theorem claim_C8 (st : GalleryState) (f : UploadedFile) (alt category : String)
    (now : Nat) (saveOk : Bool) :
    (fileFilter f.mimetype = true → maxFileSize < f.size →
      uploadRequest st (some f) alt category now saveOk = (.payloadTooLarge, st)) ∧
    (f.size ≤ maxFileSize →
      (uploadRequest st (some f) alt category now saveOk).1 ≠ .payloadTooLarge) := by
  constructor
  · intro hf hsize
    simp [uploadRequest, hf, hsize]
  · intro hsize
    have hnlt : ¬ maxFileSize < f.size := Nat.not_lt.2 hsize
    simp only [uploadRequest]
    split_ifs <;> simp_all

/-- Claim C8, witness: a `5 MiB + 1` PNG is rejected with PayloadTooLarge and
the state is untouched, while an exactly-5-MiB PNG is not rejected on size
grounds. -/
theorem claim_C8_witness :
    uploadRequest initState (some ⟨"big.png", "image/png", 5 * 1024 * 1024 + 1⟩)
        "a" "cats" 5 true
      = (.payloadTooLarge, initState) ∧
    (uploadRequest initState (some ⟨"ok.png", "image/png", 5 * 1024 * 1024⟩)
        "a" "cats" 5 true).1 ≠ .payloadTooLarge :=
  ⟨(claim_C8 initState ⟨"big.png", "image/png", 5 * 1024 * 1024 + 1⟩
      "a" "cats" 5 true).1 (by decide) (by decide),
   (claim_C8 initState ⟨"ok.png", "image/png", 5 * 1024 * 1024⟩
      "a" "cats" 5 true).2 (by decide)⟩

/-- Claim C9: a successful delete removes every record carrying the requested
id from the saved index, not only the first match. -/
theorem claim_C9 (st : GalleryState) (id : String) (saveOk : Bool)
    (h : (deleteRequest st id saveOk).1 = .deleted) :
    ∀ r ∈ (deleteRequest st id saveOk).2.index, r.id ≠ id := by
  rcases hfind : st.index.find? (fun img => img.id == id) with _ | r0
  · simp [deleteRequest, hfind] at h
  · cases saveOk with
    | false => simp [deleteRequest, hfind] at h
    | true =>
      simp only [deleteRequest, hfind, if_true]
      intro r hr
      have := (List.mem_filter.1 hr).2
      simpa [bne_iff_ne] using this

/-- Claim C9, witness: deleting id `"5"` from an index holding two records
that share that id removes also the first of them, not only one. -/
theorem claim_C9_witness :
    ¬ (⟨"5", "/images/gallery/x.jpg", "a", "cats", "5Z"⟩ : ImageRecord) ∈
        (deleteRequest dupState "5" true).2.index :=
  fun hmem => claim_C9 dupState "5" true (by decide) _ hmem rfl

/-- Claim C10: when no record carries the requested id, delete returns
NotFound and neither the blob store nor the metadata index is modified. -/
theorem claim_C10 (st : GalleryState) (id : String) (saveOk : Bool)
    (h : ∀ r ∈ st.index, r.id ≠ id) :
    deleteRequest st id saveOk = (.notFound, st) :=
  deleteRequest_eq_notFound st id saveOk h

/-- Claim C10, witness: deleting the absent id `"9"` from the sample state
returns NotFound and the state verbatim. -/
theorem claim_C10_witness :
    deleteRequest sampleState "9" true = (.notFound, sampleState) :=
  claim_C10 sampleState "9" true (by decide)

end Gallery
